import Mathlib

set_option maxRecDepth 4000

namespace SupaSeed

/-- JSON values as produced by the external json library (json.load). -/
inductive Json where
  | null
  | bool (b : Bool)
  | num (n : Int)
  | str (s : String)
  | arr (elems : List Json)
  | obj (fields : List (String × Json))

/-- Errors of the file loading path in src/src/utils/json_io.py: the
FileNotFoundError raised on a missing path, and the JSON decode error that
propagates out of json.load (the MalformedData case of the spec taxonomy). -/
inductive LoadError where
  | fileNotFound
  | malformedData
deriving DecidableEq

/-- Embedding of load_json_file from src/src/utils/json_io.py.  The filesystem
and the external parser are inputs: fileExists says whether the path exists,
and parsed is the outcome of json.load on the file content (error means a JSON
decode error).  The source checks existence, then returns json.load(file)
unchanged: it never inspects whether the parsed top-level value is an array. -/
def load_json_file (fileExists : Bool) (parsed : Except String Json) : Except LoadError Json :=
  if !fileExists then .error .fileNotFound
  else
    match parsed with
    | .error _ => .error .malformedData
    | .ok v => .ok v

/-- A database record: a mapping of field names to string values.  The only
field the claims inspect is the category field, which is string valued. -/
abbrev Record := List (String × String)

/-- A comparison value in a deletion condition: the two registered tables use
a string sentinel and an integer bound respectively. -/
inductive CVal where
  | str (s : String)
  | int (n : Int)
deriving DecidableEq

/-- A registered per-table deletion condition, as in the DELETE_CONDITIONS
entry of DB_OPERATIONS in src/src/config/constants.py: an operator name, a
comparison value and a column. -/
structure DeleteCondition where
  condition : String
  value : CVal
  column : String
deriving DecidableEq

def TABLE_CATEGORIES : String := "categories"

def TABLE_MENU_ITEMS : String := "menu_items"

/-- DB_OPERATIONS DELETE_CONDITIONS MENU_ITEMS from constants.py. -/
def DELETE_CONDITION_MENU_ITEMS : DeleteCondition := ⟨"neq", .str "nonexistent", "id"⟩

/-- DB_OPERATIONS DELETE_CONDITIONS CATEGORIES from constants.py. -/
def DELETE_CONDITION_CATEGORIES : DeleteCondition := ⟨"gte", .int 0, "id"⟩

/-- get_table_deletion_order from constants.py. -/
def get_table_deletion_order : List String := [TABLE_MENU_ITEMS, TABLE_CATEGORIES]

/-- get_table_insertion_order from constants.py. -/
def get_table_insertion_order : List String := [TABLE_CATEGORIES, TABLE_MENU_ITEMS]

/-- DB_OPERATIONS TEST_QUERY_TABLE from constants.py. -/
def TEST_QUERY_TABLE : String := "categories"

/-- DB_OPERATIONS VERIFY_LIMIT from constants.py. -/
def VERIFY_LIMIT : Nat := 1

/-- DEFAULTS UNKNOWN_CATEGORY from constants.py. -/
def UNKNOWN_CATEGORY : String := "Unknown"

/-- SupabaseClient._get_delete_condition: the dict lookup over the two
registered tables; every other table gets none. -/
def get_delete_condition (table_name : String) : Option DeleteCondition :=
  if table_name = TABLE_MENU_ITEMS then some DELETE_CONDITION_MENU_ITEMS
  else if table_name = TABLE_CATEGORIES then some DELETE_CONDITION_CATEGORIES
  else none

/-- One call issued to the remote datastore API. -/
inductive RemoteCall where
  | select (table : String) (limit : Option Nat)
  | delete (table : String) (column : String) (op : String) (value : CVal)
  | insert (table : String) (records : List Record)
deriving DecidableEq

/-- Table a remote call addresses. -/
def RemoteCall.table : RemoteCall → String
  | .select t _ => t
  | .delete t _ _ _ => t
  | .insert t _ => t

/-- A call mutates the datastore exactly when it is a delete or an insert. -/
def RemoteCall.isMutation : RemoteCall → Bool
  | .select _ _ => false
  | .delete _ _ _ _ => true
  | .insert _ _ => true

/-- The environment one run interacts with: whether client construction
resolves, and the outcome of each kind of remote call.  rows gives the
contents a full select returns for each table. -/
structure Env where
  clientOk : Bool
  probeFails : Bool
  deleteFails : String → Bool
  insertFails : String → Bool
  selectFails : String → Bool
  rows : String → List Record

/-- The delete call clear_tables issues for one table (supabase_client.py
lines 117 to 125): with a registered condition it calls delete().neq on the
condition column and value -- the source hardcodes neq and never reads the
registered operator name -- and with no registered condition it falls back to
delete().neq on column id with the sentinel value nonexistent. -/
def clearCall (table_name : String) : RemoteCall :=
  match get_delete_condition table_name with
  | some c => .delete table_name c.column "neq" c.value
  | none => .delete table_name "id" "neq" (.str "nonexistent")

/-- The for loop of clear_tables: walks the deletion order, skips tables not
in table_names when table_names is given, and issues one delete per table.  An
exception from execute ends the loop, because the try block of clear_tables
surrounds the whole loop.  Returns the issued calls and whether an exception
escaped the loop into the handler. -/
def clearLoop (env : Env) (table_names : Option (List String)) :
    List String → List RemoteCall × Bool
  | [] => ([], false)
  | t :: rest =>
    if (match table_names with
        | none => false
        | some l => decide (t ∉ l)) then
      clearLoop env table_names rest
    else
      let c := clearCall t
      if env.deleteFails t then ([c], true)
      else
        let r := clearLoop env table_names rest
        (c :: r.1, r.2)

/-- SupabaseClient.clear_tables.  When table_names is None the order defaults
to get_table_deletion_order; when table_names is given, an omitted
deletion_order defaults to table_names itself (the input order).  The whole
body runs under one try: any exception, from get_client or from a delete, is
caught there and logged as a warning, and nothing propagates to the caller.
Returns the issued delete calls and whether the warning branch ran. -/
def clear_tables (table_names deletion_order : Option (List String)) (env : Env) :
    List RemoteCall × Bool :=
  if !env.clientOk then ([], true)
  else
    let order :=
      match table_names with
      | none => deletion_order.getD get_table_deletion_order
      | some tns => deletion_order.getD tns
    clearLoop env table_names order

/-- Console lines the claims inspect, kept structured: the error line of
insert_data carries the description it was formatted with. -/
inductive LogLine where
  | errorSeeding (description : String)
  | inserted (count : Nat) (description : String)
deriving DecidableEq

/-- SupabaseClient.insert_data.  The description defaults to the table name;
one bulk insert call is issued; every exception is caught, logged together
with the description, and turned into None, so nothing raises past this call.
The external API answers a successful bulk insert with the inserted rows,
modelled as echoing the input records.  Returns the result, the logged lines
and the issued calls. -/
def insert_data (table_name : String) (data : List Record) (description : Option String)
    (env : Env) : Option (List Record) × List LogLine × List RemoteCall :=
  let desc := description.getD table_name
  if !env.clientOk then (none, [.errorSeeding desc], [])
  else if env.insertFails table_name then (none, [.errorSeeding desc], [.insert table_name data])
  else (some data, [.inserted data.length desc], [.insert table_name data])

/-- item.get of a key with a default: the first value stored under the key,
else the default. -/
def rget (r : Record) (key dflt : String) : String :=
  match r.lookup key with
  | some v => v
  | none => dflt

/-- Python dict update of a counter: the count under the key grows by one, a
new key is appended, first-seen key order is preserved. -/
def bump (m : List (String × Nat)) (k : String) : List (String × Nat) :=
  match m with
  | [] => [(k, 1)]
  | (k0, n) :: rest => if k0 = k then (k0, n + 1) :: rest else (k0, n) :: bump rest k

/-- SupabaseClient._show_category_breakdown: counts items per category field,
items without a category counted under UNKNOWN_CATEGORY, categories kept in
first-seen order. -/
def category_breakdown (items : List Record) : List (String × Nat) :=
  items.foldl (fun m item => bump m (rget item "category" UNKNOWN_CATEGORY)) []

/-- Python dict assignment of a value under a key, preserving first-seen key
order. -/
def dinsert (m : List (String × Nat)) (k : String) (v : Nat) : List (String × Nat) :=
  match m with
  | [] => [(k, v)]
  | (k0, v0) :: rest => if k0 = k then (k0, v) :: rest else (k0, v0) :: dinsert rest k v

/-- Outcome of verify_data: the returned record_counts dict, the category
breakdowns printed along the way, the issued select calls, and whether the
exception handler ran. -/
structure VerifyOut where
  counts : List (String × Nat)
  breakdowns : List (List (String × Nat))
  calls : List RemoteCall
  errored : Bool
deriving DecidableEq

/-- The verification loop of verify_data: one full select per table, a count
recorded into the record_counts dict, and the category breakdown printed for
the menu items table when requested.  An exception from a select reaches the
handler of verify_data, which returns an empty dict: counts collected so far
are discarded, while breakdowns already printed stay printed. -/
def verifyLoop (env : Env) (showBd : Bool) :
    List String → List (String × Nat) → VerifyOut
  | [], acc => ⟨acc, [], [], false⟩
  | t :: rest, acc =>
    if env.selectFails t then ⟨[], [], [.select t none], true⟩
    else
      let cnt := (env.rows t).length
      let bd := if showBd && t = TABLE_MENU_ITEMS then [category_breakdown (env.rows t)] else []
      let r := verifyLoop env showBd rest (dinsert acc t cnt)
      ⟨r.counts, bd ++ r.breakdowns, .select t none :: r.calls, r.errored⟩

/-- SupabaseClient.verify_data: table_names defaults to [categories,
menu_items]; any exception inside, from get_client or from a select, is caught
and the function returns an empty dict. -/
def verify_data (table_names : Option (List String)) (showBd : Bool) (env : Env) : VerifyOut :=
  if !env.clientOk then ⟨[], [], [], true⟩
  else verifyLoop env showBd (table_names.getD [TABLE_CATEGORIES, TABLE_MENU_ITEMS]) []

/-- SupabaseClient.test_connection: one select with limit VERIFY_LIMIT against
the probe table, which defaults to TEST_QUERY_TABLE; every exception is caught
and turned into false. -/
def test_connection (env : Env) (test_table : Option String) : List RemoteCall × Bool :=
  if !env.clientOk then ([], false)
  else
    let t := test_table.getD TEST_QUERY_TABLE
    ([.select t (some VERIFY_LIMIT)], !env.probeFails)

/-- One entry of the data_sets list run_seeding consumes. -/
structure DataSet where
  table_name : String
  data : List Record
  description : Option String

/-- The per-data-set insert loop of run_seeding: one insert_data call per set;
a success raises success_count by one and adds the length of the input data to
total_records. -/
def insertPhase (env : Env) : List DataSet → List RemoteCall × Nat × Nat
  | [] => ([], 0, 0)
  | ds :: rest =>
    let one := insert_data ds.table_name ds.data ds.description env
    let r := insertPhase env rest
    match one.1 with
    | some _ => (one.2.2 ++ r.1, r.2.1 + 1, r.2.2 + ds.data.length)
    | none => (one.2.2 ++ r.1, r.2.1, r.2.2)

/-- The observable outcome of one run_seeding call. -/
structure RunResult where
  trace : List RemoteCall
  connOk : Bool
  success_count : Nat
  total_records : Nat
  summaryShown : Bool
  verifyRan : Bool
  verifyCounts : List (String × Nat)

/-- run_seeding from src/src/supa/seed_database.py: test the connection and
return early when the test fails; when clear_existing is set, clear the tables
named by the data sets (table names passed in data-set order, no explicit
deletion_order); insert each data set; print the summary; verify exactly when
verify is set and at least one insert succeeded, over the names of all data
sets. -/
def run_seeding (data_sets : List DataSet) (verify clear_existing : Bool) (env : Env) :
    RunResult :=
  let conn := test_connection env none
  if !conn.2 then ⟨conn.1, false, 0, 0, false, false, []⟩
  else
    let tns := data_sets.map (·.table_name)
    let cl := if clear_existing then clear_tables (some tns) none env else ([], false)
    let ins := insertPhase env data_sets
    let doVerify := verify && decide (0 < ins.2.1)
    let vout := if doVerify then verify_data (some tns) true env else ⟨[], [], [], false⟩
    ⟨conn.1 ++ cl.1 ++ ins.1 ++ vout.calls, true, ins.2.1, ins.2.2, true, doVerify, vout.counts⟩

/-- How the underlying connection was created: with the primary configuration
(explicit ClientOptions with a memory storage) or with the reduced one. -/
inductive Client where
  | primary
  | reduced
deriving DecidableEq

/-- One create_client attempt: with explicit options, or without. -/
inductive CreateAttempt where
  | withOptions
  | withoutOptions
deriving DecidableEq

/-- Outcomes of the two possible create_client constructions: none means the
construction succeeds, some e means it raises with message e. -/
structure CreateEnv where
  primaryError : Option String
  reducedError : Option String

/-- Substring test on character lists. -/
def containsSub (needle : List Char) : List Char → Bool
  | [] => needle.isEmpty
  | c :: rest => needle.isPrefixOf (c :: rest) || containsSub needle rest

/-- The proxy check of get_client: whether the lowercased message of the first
exception mentions proxy.  Lowercasing is the per-character lowering of the
message text. -/
def hasProxy (e : String) : Bool := containsSub "proxy".data (e.data.map Char.toLower)

/-- SupabaseClient.get_client: returns the cached client when one is present;
otherwise tries create_client with explicit options; on an exception whose
message mentions proxy, retries exactly once without options, and a failure of
that retry propagates; a first failure not mentioning proxy propagates with no
retry.  Returns the outcome, the new cached state and the construction
attempts made. -/
def get_client (cached : Option Client) (cenv : CreateEnv) :
    Except String (Client × Option Client) × List CreateAttempt :=
  match cached with
  | some c => (.ok (c, some c), [])
  | none =>
    match cenv.primaryError with
    | none => (.ok (.primary, some .primary), [.withOptions])
    | some e =>
      if hasProxy e then
        match cenv.reducedError with
        | none => (.ok (.reduced, some .reduced), [.withOptions, .withoutOptions])
        | some e2 => (.error e2, [.withOptions, .withoutOptions])
      else (.error e, [.withOptions])

/-- C1: evaluation of clear_tables at the failing input.  With
table_names = [categories, menu_items] and deletion_order omitted, the code
deletes in the input order, categories first and menu_items second, instead of
the default deletion order [menu_items, categories] that both the claim and
the docstring of clear_tables require for an omitted deletion_order. -/
theorem C1_code_eval :
    (clear_tables (some [TABLE_CATEGORIES, TABLE_MENU_ITEMS]) none
        ⟨true, false, fun _ => false, fun _ => false, fun _ => false, fun _ => []⟩).1
      = [RemoteCall.delete "categories" "id" "neq" (CVal.int 0),
         RemoteCall.delete "menu_items" "id" "neq" (CVal.str "nonexistent")] := by
  rfl

/-- Helper for C2: in the clear loop over an order whose members all appear in
table_names, the first failing table ends the loop: every table before it is
deleted, the failing delete is attempted, and nothing after it is attempted. -/
theorem clearLoop_first_fail (env : Env) (tns : List String) :
    ∀ (l1 : List String) (t : String) (l2 : List String),
      (∀ u ∈ l1, u ∈ tns ∧ env.deleteFails u = false) →
      t ∈ tns → env.deleteFails t = true →
      clearLoop env (some tns) (l1 ++ t :: l2) = ((l1 ++ [t]).map clearCall, true)
  | [], t, l2, _, ht, hf => by
    simp [clearLoop, ht, hf]
  | u :: l1, t, l2, h1, ht, hf => by
    have hu := h1 u (by simp)
    have ih := clearLoop_first_fail env tns l1 t l2 (fun x hx => h1 x (by simp [hx])) ht hf
    simp [clearLoop, hu.1, hu.2, ih]

/-- C2 (corrected): an error while clearing one table is caught inside
clear_tables and surfaced as the warning flag, never as an exception to the
caller, but the deletes for the tables after the failing one are NOT issued:
the first failure ends the clearing loop, because the try block surrounds the
whole loop.  Stated for a call over the tables l1 ++ t :: l2 with the default
ordering, where the tables before t clear cleanly and t fails. -/
theorem C2_first_failure_ends_clearing (env : Env) (l1 l2 : List String) (t : String)
    (hc : env.clientOk = true)
    (h1 : ∀ u ∈ l1, env.deleteFails u = false)
    (ht : env.deleteFails t = true) :
    clear_tables (some (l1 ++ t :: l2)) none env = ((l1 ++ [t]).map clearCall, true) := by
  have hl : clearLoop env (some (l1 ++ t :: l2)) (l1 ++ t :: l2)
      = ((l1 ++ [t]).map clearCall, true) :=
    clearLoop_first_fail env (l1 ++ t :: l2) l1 t l2
      (fun u hu => ⟨by simp [hu], h1 u hu⟩) (by simp) ht
  simp [clear_tables, hc, hl]

/-- C2: counterexample.  clear_tables over the default deletion order with a
failure on menu_items: the claim says the delete for categories is still
issued afterwards, but the trace holds only the failed menu_items delete and
no call addressing categories; the warning flag is set instead. -/
theorem C2_counterexample :
    (clear_tables none none
        ⟨true, false, fun s => s == "menu_items", fun _ => false, fun _ => false, fun _ => []⟩)
      = ([RemoteCall.delete "menu_items" "id" "neq" (CVal.str "nonexistent")], true)
    ∧ ((clear_tables none none
        ⟨true, false, fun s => s == "menu_items", fun _ => false, fun _ => false,
          fun _ => []⟩).1.all
        (fun call => call.table != "categories")) = true := by
  exact ⟨rfl, rfl⟩

/-- C2: witness for the corrected statement, at the default deletion order
[menu_items, categories] with a failure on menu_items: only the menu_items
delete is attempted and the warning flag is set. -/
theorem C2_witness :
    (∀ u ∈ ([] : List String),
      (⟨true, false, fun s => s == "menu_items", fun _ => false, fun _ => false,
        fun _ => []⟩ : Env).deleteFails u = false)
    ∧ clear_tables (some ("menu_items" :: ["categories"])) none
        ⟨true, false, fun s => s == "menu_items", fun _ => false, fun _ => false, fun _ => []⟩
      = ([clearCall "menu_items"], true) :=
  ⟨by simp,
   C2_first_failure_ends_clearing _ [] ["categories"] "menu_items" rfl (by simp) (by decide)⟩

/-- C3: counterexample.  A file whose content parses to a JSON object, not an
array, does not make load fail with MalformedData: the parsed object comes
back unchanged. -/
theorem C3_counterexample :
    load_json_file true (Except.ok (Json.obj [("a", Json.num 1)]))
        = Except.ok (Json.obj [("a", Json.num 1)])
    ∧ load_json_file true (Except.ok (Json.obj [("a", Json.num 1)]))
        ≠ Except.error LoadError.malformedData := by
  exact ⟨rfl, by simp [load_json_file]⟩

/-- C3 (amended): on an existing file, malformed JSON makes load fail with
MalformedData, and any successfully parsed JSON value, array or not, is
returned unchanged with no error; in particular a parsed array comes back with
exactly its top-level elements. -/
theorem C3_load_contract (parsed : Except String Json) :
    (∀ e, parsed = .error e → load_json_file true parsed = .error .malformedData)
    ∧ (∀ v, parsed = .ok v → load_json_file true parsed = .ok v)
    ∧ (∀ xs, parsed = .ok (.arr xs) →
        ∃ ys : List Json, load_json_file true parsed = .ok (.arr ys)
          ∧ ys.length = xs.length) := by
  refine ⟨fun e h => by simp [h, load_json_file],
    fun v h => by simp [h, load_json_file],
    fun xs h => ⟨xs, by simp [h, load_json_file], rfl⟩⟩

/-- C3: witness instantiating the amended contract at a failed parse and at a
two-element array. -/
theorem C3_witness :
    load_json_file true (Except.error "bad") = Except.error LoadError.malformedData
    ∧ load_json_file true (Except.ok (Json.arr [Json.num 1, Json.num 2]))
        = Except.ok (Json.arr [Json.num 1, Json.num 2]) :=
  ⟨(C3_load_contract (Except.error "bad")).1 "bad" rfl,
   (C3_load_contract (Except.ok (Json.arr [Json.num 1, Json.num 2]))).2.1 _ rfl⟩

/-- C4: the registered condition for the categories table carries the operator
name gte, but clear_tables issues its delete with the hardcoded operator neq,
using only the registered column and value, so the issued delete excludes the
rows whose id equals 0 instead of selecting all rows; the impossible-sentinel
fallback does appear for a table with no registered condition. -/
theorem C4_code_eval :
    DELETE_CONDITION_CATEGORIES.condition = "gte"
    ∧ (clear_tables (some [TABLE_CATEGORIES]) none
        ⟨true, false, fun _ => false, fun _ => false, fun _ => false, fun _ => []⟩).1
        = [RemoteCall.delete "categories" "id" "neq" (CVal.int 0)]
    ∧ (clear_tables (some ["bread_locations"]) none
        ⟨true, false, fun _ => false, fun _ => false, fun _ => false, fun _ => []⟩).1
        = [RemoteCall.delete "bread_locations" "id" "neq" (CVal.str "nonexistent")] := by
  exact ⟨rfl, rfl, rfl⟩

/-- C5: when the connection test fails, run_seeding returns before the clear
and insert phases, so no mutating call, neither a delete nor an insert,
appears anywhere in the trace of the run. -/
theorem C5_no_mutation_on_failed_conn (data_sets : List DataSet) (v c : Bool) (env : Env)
    (h : (test_connection env none).2 = false) :
    ∀ call ∈ (run_seeding data_sets v c env).trace, call.isMutation = false := by
  intro call hc
  have htr : (run_seeding data_sets v c env).trace = (test_connection env none).1 := by
    simp [run_seeding, h]
  rw [htr] at hc
  by_cases hck : env.clientOk
  · simp [test_connection, hck] at hc
    subst hc
    rfl
  · simp [test_connection, hck] at hc

/-- C5: witness at a failing probe select: the connection test returns false
and every call in the trace of the run is non-mutating. -/
theorem C5_witness :
    (test_connection
        ⟨true, true, fun _ => false, fun _ => false, fun _ => false, fun _ => []⟩ none).2 = false
    ∧ ∀ call ∈ (run_seeding [⟨"categories", [[("id", "1")]], none⟩] true true
        ⟨true, true, fun _ => false, fun _ => false, fun _ => false, fun _ => []⟩).trace,
        call.isMutation = false :=
  ⟨rfl, C5_no_mutation_on_failed_conn _ true true _ rfl⟩

/-- C6: insert_data never raises past its boundary (it is a total function
into an Option); on success the returned result holds as many rows as there
were input records; on any failure the result is None and the logged error
line carries the description, which defaults to the table name. -/
theorem C6_insert_contract (table_name : String) (data : List Record)
    (description : Option String) (env : Env) :
    match insert_data table_name data description env with
    | (some r, _, _) => r.length = data.length
    | (none, logs, _) => logs = [LogLine.errorSeeding (description.getD table_name)] := by
  unfold insert_data
  by_cases h1 : env.clientOk <;> by_cases h2 : env.insertFails table_name <;> simp [h1, h2]

/-- C7: get_client constructs the connection at most once per run: a cached
client is returned with no construction attempt; a successful primary
construction is cached; a proxy-flagged failure of the primary construction is
retried exactly once without options, whose success is cached and whose
failure propagates; a non-proxy failure propagates with no retry at all. -/
theorem C7_connect_contract (cenv : CreateEnv) :
    (∀ cl, get_client (some cl) cenv = (.ok (cl, some cl), []))
    ∧ (cenv.primaryError = none →
      get_client none cenv = (.ok (.primary, some .primary), [.withOptions]))
    ∧ (∀ e, cenv.primaryError = some e → hasProxy e = true → cenv.reducedError = none →
      get_client none cenv = (.ok (.reduced, some .reduced), [.withOptions, .withoutOptions]))
    ∧ (∀ e e2, cenv.primaryError = some e → hasProxy e = true → cenv.reducedError = some e2 →
      get_client none cenv = (.error e2, [.withOptions, .withoutOptions]))
    ∧ (∀ e, cenv.primaryError = some e → hasProxy e = false →
      get_client none cenv = (.error e, [.withOptions])) := by
  refine ⟨fun cl => rfl, ?_, ?_, ?_, ?_⟩
  · intro h
    simp [get_client, h]
  · intro e h hp hr
    simp [get_client, h, hp, hr]
  · intro e e2 h hp hr
    simp [get_client, h, hp, hr]
  · intro e h hp
    simp [get_client, h, hp]

/-- C7: witness.  A proxy-flagged primary failure followed by a failing retry
propagates the error of the retry after exactly two construction attempts, and
a cached client comes back with no attempt at all. -/
theorem C7_witness :
    hasProxy "Proxy error while connecting" = true
    ∧ get_client none ⟨some "Proxy error while connecting", some "retry failed"⟩
        = (.error "retry failed", [.withOptions, .withoutOptions])
    ∧ get_client (some .primary) ⟨some "Proxy error while connecting", some "retry failed"⟩
        = (.ok (.primary, some .primary), []) :=
  ⟨by decide, (C7_connect_contract _).2.2.2.1 _ _ rfl (by decide) rfl,
   (C7_connect_contract _).1 .primary⟩

/-- Helper: dinsert records the inserted key. -/
theorem mem_dinsert_key : ∀ (m : List (String × Nat)) (k : String) (v : Nat),
    ∃ p ∈ dinsert m k v, p.1 = k
  | [], k, v => ⟨(k, v), by simp [dinsert], rfl⟩
  | (k0, v0) :: rest, k, v => by
    by_cases hk : k0 = k
    · exact ⟨(k0, v), by simp [dinsert, hk], hk⟩
    · obtain ⟨p, hp, hpk⟩ := mem_dinsert_key rest k v
      exact ⟨p, by simp [dinsert, hk, hp], hpk⟩

/-- Helper: dinsert keeps every key already present. -/
theorem mem_dinsert_preserved : ∀ (m : List (String × Nat)) (k t : String) (v : Nat),
    (∃ p ∈ m, p.1 = t) → ∃ p ∈ dinsert m k v, p.1 = t
  | [], _, _, _, h => by simp at h
  | (k0, v0) :: rest, k, t, v, h => by
    obtain ⟨p, hp, hpt⟩ := h
    by_cases hk : k0 = k
    · rcases List.mem_cons.mp hp with rfl | hm
      · exact ⟨(k0, v), by simp [dinsert, hk], hpt⟩
      · exact ⟨p, by simp [dinsert, hk, hm], hpt⟩
    · rcases List.mem_cons.mp hp with rfl | hm
      · exact ⟨(k0, v0), by simp [dinsert, hk], hpt⟩
      · obtain ⟨q, hq, hqt⟩ := mem_dinsert_preserved rest k t v ⟨p, hm, hpt⟩
        exact ⟨q, by simp [dinsert, hk, hq], hqt⟩

/-- Helper: dinsert of the value prescribed by f keeps every entry value equal
to f of its key. -/
theorem dinsert_uniform (f : String → Nat) : ∀ (m : List (String × Nat)) (k : String),
    (∀ p ∈ m, p.2 = f p.1) → ∀ p ∈ dinsert m k (f k), p.2 = f p.1
  | [], k, _, p, hp => by
    simp [dinsert] at hp
    subst hp
    rfl
  | (k0, v0) :: rest, k, hm, p, hp => by
    by_cases hk : k0 = k
    · simp [dinsert, hk] at hp
      rcases hp with rfl | hp
      · subst hk
        rfl
      · exact hm p (List.mem_cons_of_mem _ hp)
    · simp [dinsert, hk] at hp
      rcases hp with rfl | hp
      · exact hm (k0, v0) (by simp)
      · exact dinsert_uniform f rest k (fun q hq => hm q (List.mem_cons_of_mem _ hq)) p hp

/-- Helper: the first-match lookup on an association list whose every entry
value is f of its key answers f of the requested key. -/
theorem lookup_of_uniform (f : String → Nat) (t : String) :
    ∀ m : List (String × Nat), (∀ p ∈ m, p.2 = f p.1) → (∃ p ∈ m, p.1 = t) →
      m.lookup t = some (f t)
  | [], _, ht => by simp at ht
  | (k0, v0) :: rest, hm, ht => by
    by_cases hk : t = k0
    · have hv : v0 = f k0 := hm (k0, v0) (by simp)
      subst hk
      simp [List.lookup, hv]
    · have ht' : ∃ p ∈ rest, p.1 = t := by
        obtain ⟨p, hp, hpt⟩ := ht
        rcases List.mem_cons.mp hp with rfl | hmem
        · exact absurd hpt.symm hk
        · exact ⟨p, hmem, hpt⟩
      have ihr := lookup_of_uniform f t rest (fun p hp => hm p (List.mem_cons_of_mem _ hp)) ht'
      have hbeq : (t == k0) = false := by simp [hk]
      simpa [List.lookup, hbeq] using ihr

/-- Helper for C8: over tables whose selects all succeed, the verify loop
returns a counts dict in which every entry carries the row count of its table,
every requested table is present, and every key of the starting accumulator
survives. -/
theorem verifyLoop_counts (env : Env) (sb : Bool) :
    ∀ (ts : List String) (acc : List (String × Nat)),
      (∀ u ∈ ts, env.selectFails u = false) →
      (∀ p ∈ acc, p.2 = (env.rows p.1).length) →
      (∀ p ∈ (verifyLoop env sb ts acc).counts, p.2 = (env.rows p.1).length)
      ∧ (∀ t ∈ ts, ∃ p ∈ (verifyLoop env sb ts acc).counts, p.1 = t)
      ∧ (∀ t, (∃ p ∈ acc, p.1 = t) → ∃ p ∈ (verifyLoop env sb ts acc).counts, p.1 = t)
  | [], acc, _, hacc => by
    refine ⟨?_, ?_, ?_⟩
    · intro p hp
      simp [verifyLoop] at hp
      exact hacc p hp
    · intro t ht
      simp at ht
    · intro t ht
      simpa [verifyLoop] using ht
  | t :: rest, acc, hts, hacc => by
    have hf : env.selectFails t = false := hts t (by simp)
    have hacc' : ∀ p ∈ dinsert acc t ((env.rows t).length), p.2 = (env.rows p.1).length :=
      dinsert_uniform (fun s => (env.rows s).length) acc t hacc
    have ih := verifyLoop_counts env sb rest (dinsert acc t ((env.rows t).length))
      (fun u hu => hts u (by simp [hu])) hacc'
    refine ⟨?_, ?_, ?_⟩
    · intro p hp
      simp [verifyLoop, hf] at hp
      exact ih.1 p hp
    · intro u hu
      rcases List.mem_cons.mp hu with rfl | hm
      · have := ih.2.2 u (mem_dinsert_key acc u ((env.rows u).length))
        simpa [verifyLoop, hf] using this
      · have := ih.2.1 u hm
        simpa [verifyLoop, hf] using this
    · intro u hu
      have := ih.2.2 u (mem_dinsert_preserved acc t u ((env.rows t).length) hu)
      simpa [verifyLoop, hf] using this

/-- Helper for C8: over tables whose selects all succeed, when the menu items
table is among them the verify loop prints its category breakdown. -/
theorem verifyLoop_breakdowns (env : Env) :
    ∀ (ts : List String) (acc : List (String × Nat)),
      (∀ u ∈ ts, env.selectFails u = false) →
      TABLE_MENU_ITEMS ∈ ts →
      category_breakdown (env.rows TABLE_MENU_ITEMS)
        ∈ (verifyLoop env true ts acc).breakdowns
  | [], _, _, hm => by simp at hm
  | t :: rest, acc, hts, hm => by
    have hf : env.selectFails t = false := hts t (by simp)
    by_cases htm : t = TABLE_MENU_ITEMS
    · subst htm
      simp [verifyLoop, hf]
    · have hmem : TABLE_MENU_ITEMS ∈ rest := by
        rcases List.mem_cons.mp hm with h | h
        · exact absurd h.symm htm
        · exact h
      have ih := verifyLoop_breakdowns env rest (dinsert acc t ((env.rows t).length))
        (fun u hu => hts u (by simp [hu])) hmem
      simpa [verifyLoop, hf, htm] using ih

/-- C8: a verify call whose selects all succeed returns, for every requested
table, the row count of that table under its full select, and when the menu
items table is among the requested tables the printed per-category breakdown
is category_breakdown of its rows: the grouping by the category field, with
Unknown for rows missing the field, in first-seen order. -/
theorem C8_verify_contract (tns : List String) (env : Env)
    (hc : env.clientOk = true)
    (hs : ∀ u ∈ tns, env.selectFails u = false) :
    (∀ t ∈ tns,
      (verify_data (some tns) true env).counts.lookup t = some (env.rows t).length)
    ∧ (TABLE_MENU_ITEMS ∈ tns →
      category_breakdown (env.rows TABLE_MENU_ITEMS)
        ∈ (verify_data (some tns) true env).breakdowns) := by
  have hv : verify_data (some tns) true env = verifyLoop env true tns [] := by
    simp [verify_data, hc]
  constructor
  · intro t ht
    have h := verifyLoop_counts env true tns [] hs (by simp)
    rw [hv]
    exact lookup_of_uniform (fun s => (env.rows s).length) t _ h.1 (h.2.1 t ht)
  · intro hm
    rw [hv]
    exact verifyLoop_breakdowns env tns [] hs hm

/-- Environment of the spec example for verification: one category row, and
menu item rows with the category field Bread three times, Drinks twice, and
one record without a category field. -/
def exampleEnv : Env :=
  ⟨true, false, fun _ => false, fun _ => false, fun _ => false, fun t =>
    if t = TABLE_MENU_ITEMS then
      [[("category", "Bread")], [("category", "Bread")], [("category", "Bread")],
       [("category", "Drinks")], [("category", "Drinks")], []]
    else if t = TABLE_CATEGORIES then [[("id", "1"), ("name", "Bread")]]
    else []⟩

/-- C8: witness at the spec example: the counts report categories 1 and
menu_items 6, the breakdown of the menu item rows is printed, and it reads
Bread 3, Drinks 2, Unknown 1 in first-seen order. -/
theorem C8_witness :
    (∀ u ∈ [TABLE_CATEGORIES, TABLE_MENU_ITEMS], exampleEnv.selectFails u = false)
    ∧ (verify_data (some [TABLE_CATEGORIES, TABLE_MENU_ITEMS]) true exampleEnv).counts.lookup
        TABLE_CATEGORIES = some 1
    ∧ (verify_data (some [TABLE_CATEGORIES, TABLE_MENU_ITEMS]) true exampleEnv).counts.lookup
        TABLE_MENU_ITEMS = some 6
    ∧ category_breakdown (exampleEnv.rows TABLE_MENU_ITEMS)
        ∈ (verify_data (some [TABLE_CATEGORIES, TABLE_MENU_ITEMS]) true exampleEnv).breakdowns
    ∧ category_breakdown (exampleEnv.rows TABLE_MENU_ITEMS)
        = [("Bread", 3), ("Drinks", 2), ("Unknown", 1)] := by
  have h := C8_verify_contract [TABLE_CATEGORIES, TABLE_MENU_ITEMS] exampleEnv rfl (by decide)
  exact ⟨by decide,
    (h.1 TABLE_CATEGORIES (by decide)).trans (by decide),
    (h.1 TABLE_MENU_ITEMS (by decide)).trans (by decide),
    h.2 (by decide),
    by decide⟩

/-- C9 (corrected): the verify step of run_seeding runs exactly when the
verify flag is set, the connection test passed, and at least one insert
succeeded; beyond that the flags are independent: the clear and verify flags
leave success_count and total_records unchanged, and the clear flag leaves the
verify result unchanged. -/
theorem C9_flags (data_sets : List DataSet) (env : Env) (v c : Bool) :
    ((run_seeding data_sets v c env).verifyRan
      = (v && (run_seeding data_sets v c env).connOk
          && decide (0 < (run_seeding data_sets v c env).success_count)))
    ∧ (run_seeding data_sets v c env).success_count
        = (run_seeding data_sets true true env).success_count
    ∧ (run_seeding data_sets v c env).total_records
        = (run_seeding data_sets true true env).total_records
    ∧ (run_seeding data_sets v c env).verifyCounts
        = (run_seeding data_sets v true env).verifyCounts := by
  by_cases hcn : (test_connection env none).2 <;> simp [run_seeding, hcn]

/-- C9: counterexample.  A run whose single insert fails reaches the summary
step with the verify flag enabled, yet the verification step is not performed:
the code verifies only when at least one insert succeeded. -/
theorem C9_counterexample :
    (run_seeding [⟨"categories", [[("id", "1")]], none⟩] true true
        ⟨true, false, fun _ => false, fun _ => true, fun _ => false, fun _ => []⟩).summaryShown
      = true
    ∧ (run_seeding [⟨"categories", [[("id", "1")]], none⟩] true true
        ⟨true, false, fun _ => false, fun _ => true, fun _ => false, fun _ => []⟩).verifyRan
      = false :=
  ⟨rfl, rfl⟩

/-- Helper for C10: as soon as some table in the remaining list has a failing
select, the verify loop ends in the handler and the returned counts dict is
empty. -/
theorem verifyLoop_fail_empty (env : Env) (sb : Bool) :
    ∀ (ts : List String) (acc : List (String × Nat)),
      (∃ t ∈ ts, env.selectFails t = true) →
      (verifyLoop env sb ts acc).counts = []
  | [], _, h => by simp at h
  | t :: rest, acc, h => by
    by_cases hf : env.selectFails t
    · simp [verifyLoop, hf]
    · have h' : ∃ u ∈ rest, env.selectFails u = true := by
        obtain ⟨u, hu, huf⟩ := h
        rcases List.mem_cons.mp hu with rfl | hm
        · exact absurd huf hf
        · exact ⟨u, hm, huf⟩
      have ih := verifyLoop_fail_empty env sb rest (dinsert acc t ((env.rows t).length)) h'
      simpa [verifyLoop, hf] using ih

/-- C10: when the select for any requested table raises, including the last
one, verify_data returns an empty mapping: counts already collected for
earlier tables of the same call are discarded, not returned partially. -/
theorem C10_verify_discards (tns : List String) (env : Env) (t : String)
    (ht : t ∈ tns) (hf : env.selectFails t = true) :
    (verify_data (some tns) true env).counts = [] := by
  by_cases hc : env.clientOk
  · simp only [verify_data, hc, Bool.not_true, Bool.false_eq_true, if_false, Option.getD_some]
    exact verifyLoop_fail_empty env true tns [] ⟨t, ht, hf⟩
  · simp [verify_data, hc]

/-- C10: witness with the failing table last: the first select targets a
nonempty table, the last select fails, and the returned mapping is empty. -/
theorem C10_witness :
    "menu_items" ∈ ["categories", "menu_items"]
    ∧ (⟨true, false, fun _ => false, fun _ => false, fun s => s == "menu_items",
        fun _ => [[("id", "1")]]⟩ : Env).selectFails "menu_items" = true
    ∧ (verify_data (some ["categories", "menu_items"]) true
        ⟨true, false, fun _ => false, fun _ => false, fun s => s == "menu_items",
          fun _ => [[("id", "1")]]⟩).counts = [] :=
  ⟨by decide, by decide,
   C10_verify_discards ["categories", "menu_items"] _ "menu_items" (by decide) (by decide)⟩

end SupaSeed
